import Mathlib

/-!
Shallow embedding of the rule-driven ETL engine in `etl_pipeline.py`
(class `ETLPipeline`): the tabular dataset, the cleaning stage
(`clean_data`), the validation engine (`validate_data`), the
transformation engine (`transform_data`) and the orchestrator
(`run_pipeline`), together with theorems about their behaviour.

Conventions of the embedding:
* a dataframe is a column-name list plus a list of rows, each row an
  association list from column name to cell value;
* cells are `null` (pandas `NaN`), integers, or strings; the engine's
  decision logic never branches on floats or dates, so integer cells
  stand for the numeric case;
* the regex engine (`pandas.Series.str.match`) and the date parser
  (`pandas.to_datetime` with `errors='coerce'`) are external library
  collaborators: they enter as function parameters `mf` and `dFn`;
* fallible operations return `Except PipeError`; a Python exception
  escaping a method is an `Except.error`.
-/

namespace ETL

/-- A single cell value: missing (`NaN`), an integer, or a string. -/
inductive Cell where
  | null : Cell
  | int : Int → Cell
  | str : String → Cell
deriving DecidableEq

instance : Inhabited Cell := ⟨Cell.null⟩

/-- A row: association list from column name to cell value. -/
abbrev Row := List (String × Cell)

/-- A dataframe: ordered column names plus ordered rows. -/
structure Df where
  cols : List String
  rows : List Row
deriving DecidableEq

instance : Inhabited Df := ⟨⟨[], []⟩⟩

/-- Exceptions that the embedded engine can raise. -/
inductive PipeError where
  | typeError : PipeError
  | nameError : String → PipeError
  | keyError : String → PipeError
  | fileNotFound : PipeError
  | writeError : PipeError
deriving DecidableEq

/-- Read a cell from a row (pandas guarantees every row carries every
column; a missing key reads as `null`). -/
def getCell (row : Row) (c : String) : Cell :=
  (List.lookup c row).getD Cell.null

/-- `Series.notna` on one cell. -/
def notnaB : Cell → Bool
  | Cell.null => false
  | _ => true

/-- `astype(str)` on one cell: pandas renders a missing value as the
string form of `float('nan')`, which is `"nan"`. -/
def cellToStr : Cell → String
  | Cell.null => "nan"
  | Cell.int i => toString i
  | Cell.str s => s

/-- `drop_duplicates`: keep the first occurrence of each row. -/
def dropDupAux (seen : List Row) : List Row → List Row
  | [] => []
  | r :: rest => if r ∈ seen then dropDupAux seen rest else r :: dropDupAux (r :: seen) rest

/-- `ETLPipeline.clean_data`: remove exact duplicate rows (null counting
is logging only and does not alter the data). -/
def clean_data (df : Df) : Df :=
  { df with rows := dropDupAux [] df.rows }

/-- A validation rule descriptor, mirroring the `rule` dict: the
dispatch in `validate_data` compares `rule['type']` against the three
known strings and falls through silently otherwise, so an unknown type
string is kept as `other`. -/
inductive RuleDesc where
  | not_null : RuleDesc
  | range : Int → Int → RuleDesc
  | pattern : String → RuleDesc
  | other : String → RuleDesc

/-- The keep decision of the range rule on one cell:
`(df[col] >= min) & (df[col] <= max)`.  A missing value compares as
`NaN`, which is `False` on both sides; a string compared against a
number raises `TypeError` in pandas. -/
def rangeKeep (lo hi : Int) : Cell → Except PipeError Bool
  | Cell.null => Except.ok false
  | Cell.int i => Except.ok (decide (lo ≤ i) && decide (i ≤ hi))
  | Cell.str _ => Except.error PipeError.typeError

/-- Filter the rows by the range mask, propagating the comparison
`TypeError` that pandas raises when a string cell meets a numeric
bound. -/
def filterRangeRows (c : String) (lo hi : Int) : List Row → Except PipeError (List Row)
  | [] => Except.ok []
  | row :: rest =>
    match rangeKeep lo hi (getCell row c) with
    | Except.error e => Except.error e
    | Except.ok keep =>
      match filterRangeRows c lo hi rest with
      | Except.error e => Except.error e
      | Except.ok rest2 => Except.ok (if keep then row :: rest2 else rest2)

/-- The loop body of `ETLPipeline.validate_data`: walk the rules in
insertion order, each rule filtering the dataset left by the earlier
rules; a rule whose column is absent logs one warning (counted in the
`Nat` accumulator) and is skipped; an unknown rule type falls through
the `if`/`elif` chain with no effect. -/
def validateRules (mf : String → String → Bool) (cols : List String) :
    List (String × RuleDesc) → List Row → Nat → Except PipeError (List Row × Nat)
  | [], rows, w => Except.ok (rows, w)
  | (c, r) :: rest, rows, w =>
    if c ∈ cols then
      match r with
      | RuleDesc.not_null =>
        validateRules mf cols rest (rows.filter (fun row => notnaB (getCell row c))) w
      | RuleDesc.range lo hi =>
        match filterRangeRows c lo hi rows with
        | Except.error e => Except.error e
        | Except.ok rows2 => validateRules mf cols rest rows2 w
      | RuleDesc.pattern re =>
        validateRules mf cols rest
          (rows.filter (fun row => mf re (cellToStr (getCell row c)))) w
      | RuleDesc.other _ => validateRules mf cols rest rows w
    else
      validateRules mf cols rest rows (w + 1)

/-- `ETLPipeline.validate_data`: copy the frame, run the rules, return
the filtered frame together with the number of absent-column warnings
emitted.  `mf` is the regex collaborator (`Series.str.match` on the
string form of each cell). -/
def validate_data (mf : String → String → Bool) (df : Df)
    (rules : List (String × RuleDesc)) : Except PipeError (Df × Nat) :=
  match validateRules mf df.cols rules df.rows 0 with
  | Except.error e => Except.error e
  | Except.ok (rows2, w) => Except.ok ({ df with rows := rows2 }, w)

/-- ASCII uppercase on one character, the per-character action of
Python string uppercasing on the basic latin range. -/
def upChar (c : Char) : Char :=
  if 97 ≤ c.toNat ∧ c.toNat ≤ 122 then Char.ofNat (c.toNat - 32) else c

/-- ASCII lowercase on one character. -/
def downChar (c : Char) : Char :=
  if 65 ≤ c.toNat ∧ c.toNat ≤ 90 then Char.ofNat (c.toNat + 32) else c

/-- Python `str.upper` (per-character case map). -/
def pyUpper (s : String) : String :=
  String.mk (s.data.map upChar)

/-- Python `str.lower` (per-character case map). -/
def pyLower (s : String) : String :=
  String.mk (s.data.map downChar)

/-- Python `str.strip`: drop leading and trailing whitespace. -/
def pyStrip (s : String) : String :=
  String.mk (((s.data.dropWhile Char.isWhitespace).reverse.dropWhile Char.isWhitespace).reverse)

/-- `Series.str.upper` on one cell: a non-string cell becomes `NaN`. -/
def cellUpper : Cell → Cell
  | Cell.str s => Cell.str (pyUpper s)
  | _ => Cell.null

/-- `Series.str.lower` on one cell: a non-string cell becomes `NaN`. -/
def cellLower : Cell → Cell
  | Cell.str s => Cell.str (pyLower s)
  | _ => Cell.null

/-- `Series.str.strip` on one cell: a non-string cell becomes `NaN`. -/
def cellStrip : Cell → Cell
  | Cell.str s => Cell.str (pyStrip s)
  | _ => Cell.null

/-- The formula handed to `eval` in the `calculate` branch, as the
abstract syntax of the Python expression text (names, subscripts by a
string key, integer literals, and multiplication, which is all the
formula texts of interest use). -/
inductive PyExpr where
  | name : String → PyExpr
  | subscript : PyExpr → String → PyExpr
  | lit : Int → PyExpr
  | mul : PyExpr → PyExpr → PyExpr

/-- A Python value reachable during formula evaluation: a dataframe, a
pandas Series (one cell per row), an integer, a string, or an opaque
local of the enclosing method that no sensible formula dereferences. -/
inductive PyVal where
  | dfVal : Df → PyVal
  | seriesVal : List Cell → PyVal
  | intVal : Int → PyVal
  | strVal : String → PyVal
  | otherVal : PyVal

/-- Python `str * int` repetition (a non-positive count gives `""`). -/
def strRepeat (s : String) (n : Int) : String :=
  String.join (List.replicate n.toNat s)

/-- Elementwise `*` of two cells under Python semantics: numbers
multiply, `NaN` propagates through numeric multiplication, a string
times an integer is repetition, and a string times a string or times
`NaN` raises `TypeError`. -/
def cellMul : Cell → Cell → Except PipeError Cell
  | Cell.int a, Cell.int b => Except.ok (Cell.int (a * b))
  | Cell.null, Cell.int _ => Except.ok Cell.null
  | Cell.int _, Cell.null => Except.ok Cell.null
  | Cell.null, Cell.null => Except.ok Cell.null
  | Cell.str s, Cell.int n => Except.ok (Cell.str (strRepeat s n))
  | Cell.int n, Cell.str s => Except.ok (Cell.str (strRepeat s n))
  | _, _ => Except.error PipeError.typeError

/-- Elementwise multiplication of two same-length Series (the columns
multiplied by a formula always come from the same frame, so the
mismatched-length alignment case never arises and is mapped to an
error). -/
def seriesMul : List Cell → List Cell → Except PipeError (List Cell)
  | [], [] => Except.ok []
  | a :: as, b :: bs =>
    match cellMul a b with
    | Except.error e => Except.error e
    | Except.ok c =>
      match seriesMul as bs with
      | Except.error e => Except.error e
      | Except.ok cs => Except.ok (c :: cs)
  | _, _ => Except.error PipeError.typeError

/-- The cells of one column, top to bottom. -/
def colCells (rows : List Row) (c : String) : List Cell :=
  rows.map (fun row => getCell row c)

/-- `*` on Python values: Series multiply elementwise, an integer
broadcasts over a Series, and the remaining combinations that the
formulas of interest can produce follow Python's `*`. -/
def pyMul : PyVal → PyVal → Except PipeError PyVal
  | PyVal.seriesVal a, PyVal.seriesVal b =>
    match seriesMul a b with
    | Except.error e => Except.error e
    | Except.ok cs => Except.ok (PyVal.seriesVal cs)
  | PyVal.seriesVal a, PyVal.intVal n =>
    match seriesMul a (a.map (fun _ => Cell.int n)) with
    | Except.error e => Except.error e
    | Except.ok cs => Except.ok (PyVal.seriesVal cs)
  | PyVal.intVal n, PyVal.seriesVal a =>
    match seriesMul (a.map (fun _ => Cell.int n)) a with
    | Except.error e => Except.error e
    | Except.ok cs => Except.ok (PyVal.seriesVal cs)
  | PyVal.intVal a, PyVal.intVal b => Except.ok (PyVal.intVal (a * b))
  | PyVal.strVal s, PyVal.intVal n => Except.ok (PyVal.strVal (strRepeat s n))
  | PyVal.intVal n, PyVal.strVal s => Except.ok (PyVal.strVal (strRepeat s n))
  | _, _ => Except.error PipeError.typeError

/-- `eval(formula)` over an environment of Python locals: a bare name
not bound in the enclosing scope raises `NameError`; subscripting a
dataframe by a column name yields that column as a Series (`KeyError`
if the column is absent); `*` is `pyMul`. -/
def pyEval (env : List (String × PyVal)) : PyExpr → Except PipeError PyVal
  | PyExpr.name s =>
    match List.lookup s env with
    | some v => Except.ok v
    | none => Except.error (PipeError.nameError s)
  | PyExpr.lit n => Except.ok (PyVal.intVal n)
  | PyExpr.subscript e k =>
    match pyEval env e with
    | Except.error er => Except.error er
    | Except.ok (PyVal.dfVal d) =>
      if k ∈ d.cols then Except.ok (PyVal.seriesVal (colCells d.rows k))
      else Except.error (PipeError.keyError k)
    | Except.ok _ => Except.error PipeError.typeError
  | PyExpr.mul a b =>
    match pyEval env a with
    | Except.error er => Except.error er
    | Except.ok va =>
      match pyEval env b with
      | Except.error er => Except.error er
      | Except.ok vb => pyMul va vb

/-- A transformation descriptor, mirroring the `transform` dict; as in
`validate_data`, a type string outside the recognized six falls through
the `if`/`elif` chain, kept here as `other`. -/
inductive TransformDesc where
  | uppercase : TransformDesc
  | lowercase : TransformDesc
  | date : TransformDesc
  | category : TransformDesc
  | strip : TransformDesc
  | calculate : PyExpr → TransformDesc
  | other : String → TransformDesc

/-- Overwrite the cell of column `c` in one row (pandas column
assignment writes every row's cell of that column). -/
def setCellRow (row : Row) (c : String) (v : Cell) : Row :=
  row.map (fun p => if p.1 = c then (p.1, v) else p)

/-- Rewrite column `c` elementwise. -/
def mapCol (rows : List Row) (c : String) (f : Cell → Cell) : List Row :=
  rows.map (fun row => setCellRow row c (f (getCell row c)))

/-- Assign a whole Series to column `c`, row by row. -/
def setColRows (rows : List Row) (c : String) (vals : List Cell) : List Row :=
  (rows.zip vals).map (fun rv => setCellRow rv.1 c rv.2)

/-- `df_transformed[column] = value`: a Series assigns row by row, a
scalar broadcasts. -/
def assignCol (d : Df) (c : String) : PyVal → Except PipeError Df
  | PyVal.seriesVal cells => Except.ok { d with rows := setColRows d.rows c cells }
  | PyVal.intVal n => Except.ok { d with rows := mapCol d.rows c (fun _ => Cell.int n) }
  | PyVal.strVal s => Except.ok { d with rows := mapCol d.rows c (fun _ => Cell.str s) }
  | _ => Except.error PipeError.typeError

/-- One arm of the `if`/`elif` dispatch in `transform_data`, applied to
the current frame `cur`.  `df0` is the method's `df` argument and `dFn`
the external date parser (`pd.to_datetime` with `errors='coerce'`).
The `calculate` arm evaluates the formula with `eval` in the method's
scope, whose locals are `df`, `transformations`, `column`, `transform`
and `df_transformed`. -/
def applyTransform (dFn : Cell → Cell) (df0 cur : Df) (c : String) :
    TransformDesc → Except PipeError Df
  | TransformDesc.uppercase => Except.ok { cur with rows := mapCol cur.rows c cellUpper }
  | TransformDesc.lowercase => Except.ok { cur with rows := mapCol cur.rows c cellLower }
  | TransformDesc.date => Except.ok { cur with rows := mapCol cur.rows c dFn }
  | TransformDesc.category => Except.ok cur
  | TransformDesc.strip => Except.ok { cur with rows := mapCol cur.rows c cellStrip }
  | TransformDesc.calculate f =>
    match pyEval [("df", PyVal.dfVal df0), ("transformations", PyVal.otherVal),
                  ("column", PyVal.strVal c), ("transform", PyVal.otherVal),
                  ("df_transformed", PyVal.dfVal cur)] f with
    | Except.error e => Except.error e
    | Except.ok v => assignCol cur c v
  | TransformDesc.other _ => Except.ok cur

/-- The loop of `ETLPipeline.transform_data`: transforms in insertion
order, each rewriting the frame produced by the earlier ones; an
absent column logs one warning (counted) and is skipped. -/
def transformSteps (dFn : Cell → Cell) (df0 : Df) :
    List (String × TransformDesc) → Df → Nat → Except PipeError (Df × Nat)
  | [], cur, w => Except.ok (cur, w)
  | (c, t) :: rest, cur, w =>
    if c ∈ cur.cols then
      match applyTransform dFn df0 cur c t with
      | Except.error e => Except.error e
      | Except.ok cur2 => transformSteps dFn df0 rest cur2 w
    else
      transformSteps dFn df0 rest cur (w + 1)

/-- `ETLPipeline.transform_data`: copy the frame and run the
transforms. -/
def transform_data (dFn : Cell → Cell) (df : Df)
    (ts : List (String × TransformDesc)) : Except PipeError (Df × Nat) :=
  transformSteps dFn df ts df 0

/-- The `self.stats` dictionary. -/
structure Stats where
  extracted : Nat
  transformed : Nat
  loaded : Nat
  errors : Nat
deriving DecidableEq

/-- `self.stats['errors'] += 1`. -/
def addError (s : Stats) : Stats :=
  { s with errors := s.errors + 1 }

/-- The mutable state of an `ETLPipeline` object: its stats and whether
a database connection is currently open. -/
structure PipeState where
  stats : Stats
  connectionOpen : Bool
deriving DecidableEq

/-- `ETLPipeline.__init__`: zeroed counters, no connection. -/
def initPipeline : PipeState :=
  { stats := { extracted := 0, transformed := 0, loaded := 0, errors := 0 },
    connectionOpen := false }

/-- The `try` body of `run_pipeline` acting on the stats: extraction
(the CSV reader collaborator's outcome enters as `extractRes`; on
failure `extract_csv` increments the error counter and re-raises, on
success it overwrites `extracted`), cleaning, validation and
transformation (both skipped when their rule dict is falsy, and neither
touches the error counter when it raises), then the load step (`loadOk`
is the SQL writer collaborator's outcome; on failure `load_to_db`
increments the error counter and re-raises, on success it overwrites
`loaded`; index creation swallows its own failures and changes no
counter). -/
def runStages (mf : String → String → Bool) (dFn : Cell → Cell) (st : Stats)
    (extractRes : Except PipeError Df) (rules : List (String × RuleDesc))
    (ts : List (String × TransformDesc)) (loadOk : Bool) :
    Except PipeError Unit × Stats :=
  match extractRes with
  | Except.error e => (Except.error e, addError st)
  | Except.ok df0 =>
    let st1 := { st with extracted := df0.rows.length }
    let df1 := clean_data df0
    match (if rules.isEmpty then Except.ok (df1, 0) else validate_data mf df1 rules) with
    | Except.error e => (Except.error e, st1)
    | Except.ok (df2, _) =>
      match (if ts.isEmpty then Except.ok (df2, 0) else transform_data dFn df2 ts) with
      | Except.error e => (Except.error e, st1)
      | Except.ok (df3, _) =>
        let st2 := if ts.isEmpty then st1 else { st1 with transformed := df3.rows.length }
        if loadOk then (Except.ok (), { st2 with loaded := df3.rows.length })
        else (Except.error PipeError.writeError, addError st2)

/-- `ETLPipeline.run_pipeline`: connect, run the staged `try` body, and
in the `finally` clause close the connection on every exit path; a
stage failure re-raises to the caller. -/
def run_pipeline (p : PipeState) (mf : String → String → Bool)
    (dFn : Cell → Cell) (extractRes : Except PipeError Df)
    (rules : List (String × RuleDesc)) (ts : List (String × TransformDesc))
    (loadOk : Bool) : Except PipeError Unit × PipeState :=
  let opened := { p with connectionOpen := true }
  let body := runStages mf dFn opened.stats extractRes rules ts loadOk
  (body.1, { stats := body.2, connectionOpen := false })

/-- A heap of dataframe objects, for the aliasing-sensitive statements:
Python variables denote slots, `df.copy()` and the pandas operations
that return fresh frames allocate a new slot, and in-place column
assignment writes back to the slot it aliases. -/
abbrev Store := List Df

/-- `clean_data` on a stored frame: `drop_duplicates` returns a fresh
frame, allocated at the end of the store; the input slot is read
only. -/
def clean_dataS (s : Store) (i : Nat) : Store × Nat :=
  (s ++ [clean_data (s.getD i default)], s.length)

/-- `validate_data` on a stored frame: `df.copy()` and every masking
step rebind `df_valid` to fresh frames, so only the final frame needs a
slot; the input slot is read only. -/
def validate_dataS (mf : String → String → Bool) (s : Store) (i : Nat)
    (rules : List (String × RuleDesc)) : Store × Except PipeError Nat :=
  match validate_data mf (s.getD i default) rules with
  | Except.error e => (s, Except.error e)
  | Except.ok (d, _) => (s ++ [d], Except.ok s.length)

/-- The loop of `transform_data` on the store: every column assignment
mutates the frame in slot `j` (the copy) in place. -/
def transformStepsS (dFn : Cell → Cell) (df0 : Df) (j : Nat) :
    List (String × TransformDesc) → Store → Store × Except PipeError Nat
  | [], s => (s, Except.ok j)
  | (c, t) :: rest, s =>
    if c ∈ (s.getD j default).cols then
      match applyTransform dFn df0 (s.getD j default) c t with
      | Except.error e => (s, Except.error e)
      | Except.ok cur2 => transformStepsS dFn df0 j rest (s.set j cur2)
    else
      transformStepsS dFn df0 j rest s

/-- `transform_data` on a stored frame: `df.copy()` allocates the slot
that the loop then mutates; the input slot is read only. -/
def transform_dataS (dFn : Cell → Cell) (s : Store) (i : Nat)
    (ts : List (String × TransformDesc)) : Store × Except PipeError Nat :=
  transformStepsS dFn (s.getD i default) s.length ts (s ++ [s.getD i default])

/-- The keep predicate of a single rule on a single row, stated as in
the specification: not-null keeps non-missing cells; range keeps
numeric cells within the inclusive bounds (a non-numeric cell fails the
predicate); pattern keeps rows whose cell's string form matches; a
descriptor outside the rule taxonomy constrains nothing. -/
def rulePass (mf : String → String → Bool) (c : String) : RuleDesc → Row → Bool
  | RuleDesc.not_null, row => notnaB (getCell row c)
  | RuleDesc.range lo hi, row =>
    match getCell row c with
    | Cell.int i => decide (lo ≤ i) && decide (i ≤ hi)
    | _ => false
  | RuleDesc.pattern re, row => mf re (cellToStr (getCell row c))
  | RuleDesc.other _, _ => true

/-- A row satisfies every rule whose column exists in the dataset. -/
def passesAll (mf : String → String → Bool) (cols : List String)
    (rules : List (String × RuleDesc)) (row : Row) : Bool :=
  rules.all (fun cr => if cr.1 ∈ cols then rulePass mf cr.1 cr.2 row else true)

/-- Concrete regex collaborator for witnesses: match anchored at the
start of the string. -/
def mfW : String → String → Bool := fun re s => s.startsWith re

/-- Concrete date-parser collaborator for witnesses. -/
def dFnW : Cell → Cell := fun c => c

/-- Three-row ages frame: one in range, one out of range, one null. -/
def dfAges : Df :=
  ⟨["age"], [[("age", Cell.int 25)], [("age", Cell.int 101)], [("age", Cell.null)]]⟩

/-- One-row frame with a string cell in a numeric rule's column. -/
def dfStr1 : Df := ⟨["age"], [[("age", Cell.str "abc")]]⟩

/-- Small two-row one-column frame. -/
def dfAB : Df := ⟨["a"], [[("a", Cell.int 1)], [("a", Cell.int 2)]]⟩

/-- Two-row frame with `price = 10` and `qty = 3` everywhere. -/
def dfPQ : Df :=
  ⟨["price", "qty", "total"],
   [[("price", Cell.int 10), ("qty", Cell.int 3), ("total", Cell.int 0)],
    [("price", Cell.int 10), ("qty", Cell.int 3), ("total", Cell.int 0)]]⟩

/-- The filtered frame of the C1 witness run. -/
def dfAgesOut : Df := ⟨["age"], [[("age", Cell.int 25)]]⟩

/-- `Char.ofNat` of a valid codepoint converts back to the same
number. -/
theorem char_ofNat_valid (n : Nat) (h : n.isValidChar) : (Char.ofNat n).toNat = n := by
  unfold Char.ofNat
  rw [dif_pos h]
  rfl

/-- Uppercasing a character twice equals uppercasing it once. -/
theorem upChar_idem (c : Char) : upChar (upChar c) = upChar c := by
  unfold upChar
  by_cases h : 97 ≤ c.toNat ∧ c.toNat ≤ 122
  · rw [if_pos h]
    have hv : (c.toNat - 32).isValidChar := Or.inl (by omega)
    rw [char_ofNat_valid _ hv, if_neg (by omega)]
  · rw [if_neg h, if_neg h]

/-- Lowercasing a character twice equals lowercasing it once. -/
theorem downChar_idem (c : Char) : downChar (downChar c) = downChar c := by
  unfold downChar
  by_cases h : 65 ≤ c.toNat ∧ c.toNat ≤ 90
  · rw [if_pos h]
    have hv : (c.toNat + 32).isValidChar := Or.inl (by omega)
    rw [char_ofNat_valid _ hv, if_neg (by omega)]
  · rw [if_neg h, if_neg h]

/-- `str.upper` is idempotent. -/
theorem pyUpper_idem (s : String) : pyUpper (pyUpper s) = pyUpper s := by
  have hd : ∀ l : List Char, (String.mk l).data = l := fun _ => rfl
  unfold pyUpper
  rw [hd, List.map_map]
  exact congrArg String.mk (List.map_congr_left (fun a _ => upChar_idem a))

/-- `str.lower` is idempotent. -/
theorem pyLower_idem (s : String) : pyLower (pyLower s) = pyLower s := by
  have hd : ∀ l : List Char, (String.mk l).data = l := fun _ => rfl
  unfold pyLower
  rw [hd, List.map_map]
  exact congrArg String.mk (List.map_congr_left (fun a _ => downChar_idem a))

/-- The cell action of `Series.str.upper` is idempotent (a non-string
cell goes to `NaN`, which stays `NaN`). -/
theorem cellUpper_idem (x : Cell) : cellUpper (cellUpper x) = cellUpper x := by
  cases x <;> simp [cellUpper, pyUpper_idem]

/-- The cell action of `Series.str.lower` is idempotent. -/
theorem cellLower_idem (x : Cell) : cellLower (cellLower x) = cellLower x := by
  cases x <;> simp [cellLower, pyLower_idem]

/-- Setting the same column twice keeps only the second value. -/
theorem setCellRow_setCellRow (row : Row) (c : String) (v w : Cell) :
    setCellRow (setCellRow row c v) c w = setCellRow row c w := by
  unfold setCellRow
  rw [List.map_map]
  apply List.map_congr_left
  intro p _
  by_cases hp : p.1 = c <;> simp [hp]

/-- Setting a column that the row does not carry changes nothing
(every row of a frame carries every frame column, so this is the
degenerate case). -/
theorem setCellRow_of_absent (row : Row) (c : String) (v : Cell)
    (h : List.lookup c row = none) : setCellRow row c v = row := by
  induction row with
  | nil => rfl
  | cons p rest ih =>
    obtain ⟨k, u⟩ := p
    rcases hck : (c == k) with _ | _ <;> simp only [List.lookup, hck] at h
    · have hk : ¬(k = c) := fun he => by
        simp [he] at hck
      rw [show setCellRow ((k, u) :: rest) c v = (k, u) :: setCellRow rest c v from by
        simp [setCellRow, hk]]
      rw [ih h]
    · cases h

/-- Setting a column and then reading it back gives the new value, on
any row that carries the column. -/
theorem lookup_setCellRow (row : Row) (c : String) (v : Cell) :
    List.lookup c (setCellRow row c v) = (List.lookup c row).map (fun _ => v) := by
  induction row with
  | nil => rfl
  | cons p rest ih =>
    obtain ⟨k, u⟩ := p
    by_cases hk : k = c
    · subst hk
      rw [show setCellRow ((k, u) :: rest) k v = (k, v) :: setCellRow rest k v from by
        simp [setCellRow]]
      simp [List.lookup]
    · rw [show setCellRow ((k, u) :: rest) c v = (k, u) :: setCellRow rest c v from by
        simp [setCellRow, hk]]
      have hk2 : (c == k) = false := by
        simp [Ne.symm hk]
      simp [List.lookup, hk2, ih]

/-- Reading the assigned column back through `getCell`. -/
theorem getCell_setCellRow (row : Row) (c : String) (v : Cell)
    (h : (List.lookup c row).isSome = true) :
    getCell (setCellRow row c v) c = v := by
  rcases ho : List.lookup c row with _ | u
  · rw [ho] at h
    cases h
  · simp [getCell, lookup_setCellRow, ho]

/-- Rewriting a column elementwise with an idempotent cell map is
idempotent. -/
theorem mapCol_idem (rows : List Row) (c : String) (f : Cell → Cell)
    (hf : ∀ x, f (f x) = f x) :
    mapCol (mapCol rows c f) c f = mapCol rows c f := by
  unfold mapCol
  rw [List.map_map]
  apply List.map_congr_left
  intro row _
  show setCellRow (setCellRow row c (f (getCell row c))) c
      (f (getCell (setCellRow row c (f (getCell row c))) c)) =
    setCellRow row c (f (getCell row c))
  rcases ho : List.lookup c row with _ | u
  · have h1 : ∀ x : Cell, setCellRow row c x = row :=
      fun x => setCellRow_of_absent row c x ho
    simp only [h1]
  · have hg : getCell (setCellRow row c (f (getCell row c))) c = f (getCell row c) :=
      getCell_setCellRow row c _ (by rw [ho]; rfl)
    rw [hg, setCellRow_setCellRow, hf]

/-- Claim C8: the uppercase (respectively lowercase) transform is
idempotent — running `transform_data` a second time on its own output
returns that output unchanged, with the same warning count. -/
theorem case_fold_idempotent (dFn : Cell → Cell) (df : Df) (c : String) :
    ((transform_data dFn df [(c, TransformDesc.uppercase)]).bind
        (fun r => transform_data dFn r.1 [(c, TransformDesc.uppercase)])) =
      transform_data dFn df [(c, TransformDesc.uppercase)] ∧
    ((transform_data dFn df [(c, TransformDesc.lowercase)]).bind
        (fun r => transform_data dFn r.1 [(c, TransformDesc.lowercase)])) =
      transform_data dFn df [(c, TransformDesc.lowercase)] := by
  constructor <;> by_cases hc : c ∈ df.cols
  · simp only [transform_data, transformSteps, if_pos hc, applyTransform, Except.bind]
    simp [mapCol_idem df.rows c cellUpper cellUpper_idem, hc]
  · simp [transform_data, transformSteps, hc, Except.bind]
  · simp only [transform_data, transformSteps, if_pos hc, applyTransform, Except.bind]
    simp [mapCol_idem df.rows c cellLower cellLower_idem, hc]
  · simp [transform_data, transformSteps, hc, Except.bind]

/-- Claim C7: applying `validate_data` with an empty rule set, or
`transform_data` with an empty transformation set, returns the input
dataset unchanged (same rows, order, columns and cells) with no
warnings and no error. -/
theorem empty_rule_sets_noop (mf : String → String → Bool) (dFn : Cell → Cell) (df : Df) :
    validate_data mf df [] = Except.ok (df, 0) ∧
    transform_data dFn df [] = Except.ok (df, 0) :=
  ⟨rfl, rfl⟩

/-- Claim C9: a single validation rule or transformation whose target
column is absent from the dataset leaves the dataset unchanged, emits
exactly one warning, and raises no error. -/
theorem absent_column_rule_noop (mf : String → String → Bool) (dFn : Cell → Cell)
    (df : Df) (c : String) (r : RuleDesc) (t : TransformDesc) (hc : c ∉ df.cols) :
    validate_data mf df [(c, r)] = Except.ok (df, 1) ∧
    transform_data dFn df [(c, t)] = Except.ok (df, 1) := by
  constructor
  · simp [validate_data, validateRules, hc]
  · simp [transform_data, transformSteps, hc]

/-- Witness for C9 at a concrete frame and absent column. -/
theorem absent_column_rule_noop_witness :
    validate_data mfW dfAB [("zzz", RuleDesc.not_null)] = Except.ok (dfAB, 1) ∧
    transform_data dFnW dfAB [("zzz", TransformDesc.uppercase)] = Except.ok (dfAB, 1) :=
  absent_column_rule_noop mfW dFnW dfAB "zzz" RuleDesc.not_null TransformDesc.uppercase
    (by decide)

/-- A successful range pass keeps exactly the rows whose cell is a
number within the inclusive bounds. -/
theorem filterRangeRows_ok (mf : String → String → Bool) (c : String) (lo hi : Int) :
    ∀ (rows rows2 : List Row), filterRangeRows c lo hi rows = Except.ok rows2 →
      rows2 = rows.filter (rulePass mf c (RuleDesc.range lo hi)) := by
  intro rows
  induction rows with
  | nil =>
    intro rows2 h
    simp only [filterRangeRows] at h
    cases h
    rfl
  | cons row rest ih =>
    intro rows2 h
    simp only [filterRangeRows] at h
    rcases hcell : getCell row c with _ | i | s <;> rw [hcell] at h <;>
      simp only [rangeKeep] at h
    · rcases hrec : filterRangeRows c lo hi rest with e | rest2 <;> rw [hrec] at h
      · cases h
      · cases h
        simp [List.filter_cons, rulePass, hcell, ih rest2 hrec]
    · rcases hrec : filterRangeRows c lo hi rest with e | rest2 <;> rw [hrec] at h
      · cases h
      · cases h
        by_cases hk : (decide (lo ≤ i) && decide (i ≤ hi)) = true
        · simp [List.filter_cons, rulePass, hcell, hk, ih rest2 hrec]
        · simp only [Bool.not_eq_true] at hk
          simp [List.filter_cons, rulePass, hcell, hk, ih rest2 hrec]
    · cases h

/-- A successful run of the validation loop returns exactly the rows
that satisfy every rule whose column exists. -/
theorem validateRules_ok_filter (mf : String → String → Bool) (cols : List String) :
    ∀ (rules : List (String × RuleDesc)) (rows : List Row) (w w2 : Nat) (rows2 : List Row),
      validateRules mf cols rules rows w = Except.ok (rows2, w2) →
      rows2 = rows.filter (passesAll mf cols rules) := by
  intro rules
  induction rules with
  | nil =>
    intro rows w w2 rows2 h
    simp only [validateRules] at h
    cases h
    have h1 : List.filter (passesAll mf cols []) rows = List.filter (fun _ => true) rows :=
      List.filter_congr (fun row _ => by simp [passesAll])
    rw [h1, List.filter_true]
  | cons cr rest ih =>
    obtain ⟨c, r⟩ := cr
    intro rows w w2 rows2 h
    by_cases hc : c ∈ cols
    · cases r with
      | not_null =>
        simp only [validateRules, if_pos hc] at h
        rw [ih _ _ _ _ h, List.filter_filter]
        apply List.filter_congr
        intro row _
        simp [passesAll, rulePass, hc, Bool.and_comm]
      | range lo hi =>
        simp only [validateRules, if_pos hc] at h
        rcases hfr : filterRangeRows c lo hi rows with e | rows3 <;> rw [hfr] at h
        · cases h
        · rw [ih _ _ _ _ h, filterRangeRows_ok mf c lo hi rows rows3 hfr,
            List.filter_filter]
          apply List.filter_congr
          intro row _
          simp [passesAll, rulePass, hc, Bool.and_comm]
      | pattern re =>
        simp only [validateRules, if_pos hc] at h
        rw [ih _ _ _ _ h, List.filter_filter]
        apply List.filter_congr
        intro row _
        simp [passesAll, rulePass, hc, Bool.and_comm]
      | other k =>
        simp only [validateRules, if_pos hc] at h
        rw [ih _ _ _ _ h]
        apply List.filter_congr
        intro row _
        simp [passesAll, rulePass, hc]
    · simp only [validateRules, if_neg hc] at h
      rw [ih _ _ _ _ h]
      apply List.filter_congr
      intro row _
      simp [passesAll, hc]

/-- Claim C1: on success, `validate_data` returns exactly the input
rows that satisfy every rule whose column exists in the dataset (the
sequential per-rule filtering composes by intersection), and every
remaining row satisfies every applied rule. -/
theorem validate_data_sequential_filter (mf : String → String → Bool) (df : Df)
    (rules : List (String × RuleDesc)) (out : Df) (w : Nat)
    (h : validate_data mf df rules = Except.ok (out, w)) :
    out.cols = df.cols ∧
    out.rows = df.rows.filter (passesAll mf df.cols rules) ∧
    ∀ row ∈ out.rows, ∀ cr ∈ rules, cr.1 ∈ df.cols → rulePass mf cr.1 cr.2 row = true := by
  unfold validate_data at h
  rcases hv : validateRules mf df.cols rules df.rows 0 with e | pr <;> rw [hv] at h
  · cases h
  · obtain ⟨rows2, w2⟩ := pr
    cases h
    have hfil := validateRules_ok_filter mf df.cols rules df.rows 0 w rows2 hv
    refine ⟨rfl, hfil, ?_⟩
    intro row hrow cr hcr hccol
    rw [hfil] at hrow
    have hp := (List.mem_filter.1 hrow).2
    have := (List.all_eq_true.1 hp) cr hcr
    simpa [hccol] using this

/-- Witness for C1: a concrete range-rule run. -/
theorem validate_data_sequential_filter_witness :
    dfAgesOut.cols = dfAges.cols ∧
    dfAgesOut.rows = dfAges.rows.filter
      (passesAll mfW dfAges.cols [("age", RuleDesc.range 18 100)]) ∧
    ∀ row ∈ dfAgesOut.rows, ∀ cr ∈ [("age", RuleDesc.range 18 100)],
      cr.1 ∈ dfAges.cols → rulePass mfW cr.1 cr.2 row = true :=
  validate_data_sequential_filter mfW dfAges [("age", RuleDesc.range 18 100)] dfAgesOut 0 rfl

/-- A string cell anywhere in the column makes the range mask raise
`TypeError`. -/
theorem filterRangeRows_str_error (c : String) (lo hi : Int) :
    ∀ rows : List Row, (∃ row ∈ rows, ∃ s, getCell row c = Cell.str s) →
      filterRangeRows c lo hi rows = Except.error PipeError.typeError := by
  intro rows
  induction rows with
  | nil =>
    rintro ⟨row, hmem, _⟩
    simp at hmem
  | cons row rest ih =>
    rintro ⟨row2, hmem, s, hs⟩
    rcases List.mem_cons.1 hmem with rfl | hmem2
    · simp [filterRangeRows, hs, rangeKeep]
    · rcases hcell : getCell row c with _ | i | s2
      · simp [filterRangeRows, hcell, rangeKeep, ih ⟨row2, hmem2, s, hs⟩]
      · simp [filterRangeRows, hcell, rangeKeep, ih ⟨row2, hmem2, s, hs⟩]
      · simp [filterRangeRows, hcell, rangeKeep]

/-- Counterexample to claim C2 as stated: a row whose cell is the
non-numeric string `"abc"` is not removed by the range rule — the
comparison against the numeric bound raises `TypeError` and
`validate_data` propagates it. -/
theorem range_nonnumeric_error_cex :
    validate_data mfW dfStr1 [("age", RuleDesc.range 18 100)] =
      Except.error PipeError.typeError := rfl

/-- Claim C2 amended: for a range rule on an existing column, a
successful `validate_data` keeps exactly the rows whose cell is a
number with `min ≤ cell ≤ max`, both bounds inclusive (a missing cell
fails the predicate and is removed); but a non-numeric string cell
makes `validate_data` raise a `TypeError` rather than being removed. -/
theorem range_rule_semantics (mf : String → String → Bool) (df : Df) (c : String)
    (lo hi : Int) (hc : c ∈ df.cols) :
    (∀ out w, validate_data mf df [(c, RuleDesc.range lo hi)] = Except.ok (out, w) →
      out.rows = df.rows.filter (rulePass mf c (RuleDesc.range lo hi)) ∧
      ∀ row ∈ out.rows, ∃ i, getCell row c = Cell.int i ∧ lo ≤ i ∧ i ≤ hi) ∧
    ((∃ row ∈ df.rows, ∃ s, getCell row c = Cell.str s) →
      validate_data mf df [(c, RuleDesc.range lo hi)] =
        Except.error PipeError.typeError) := by
  constructor
  · intro out w h
    simp only [validate_data, validateRules, if_pos hc] at h
    rcases hfr : filterRangeRows c lo hi df.rows with e | rows2 <;> rw [hfr] at h
    · cases h
    · cases h
      have heq := filterRangeRows_ok mf c lo hi df.rows rows2 hfr
      refine ⟨heq, ?_⟩
      intro row hrow
      rw [heq] at hrow
      have hp := (List.mem_filter.1 hrow).2
      rcases hcell : getCell row c with _ | i | s <;> simp [rulePass, hcell] at hp
      exact ⟨i, rfl, hp.1, hp.2⟩
  · rintro ⟨row, hmem, s, hs⟩
    simp only [validate_data, validateRules, if_pos hc]
    rw [filterRangeRows_str_error c lo hi df.rows ⟨row, hmem, s, hs⟩]

/-- Witness for the amended C2 at a concrete frame with an in-range, an
out-of-range and a missing cell. -/
theorem range_rule_semantics_witness :
    (∀ out w, validate_data mfW dfAges [("age", RuleDesc.range 18 100)] = Except.ok (out, w) →
      out.rows = dfAges.rows.filter (rulePass mfW "age" (RuleDesc.range 18 100)) ∧
      ∀ row ∈ out.rows, ∃ i, getCell row "age" = Cell.int i ∧ 18 ≤ i ∧ i ≤ 100) ∧
    ((∃ row ∈ dfAges.rows, ∃ s, getCell row "age" = Cell.str s) →
      validate_data mfW dfAges [("age", RuleDesc.range 18 100)] =
        Except.error PipeError.typeError) :=
  range_rule_semantics mfW dfAges "age" 18 100 (by decide)

/-- Looking up `df_transformed` among the locals of `transform_data`
finds the working copy. -/
theorem lookupEnv (v0 v1 v2 v3 v4 : PyVal) :
    List.lookup "df_transformed"
      [("df", v0), ("transformations", v1), ("column", v2), ("transform", v3),
       ("df_transformed", v4)] = some v4 := rfl

/-- Assigning a Series computed rowwise from the frame itself sets each
row's cell from that row. -/
theorem setColRows_map (rows : List Row) (c : String) (g : Row → Cell) :
    setColRows rows c (rows.map g) = rows.map (fun row => setCellRow row c (g row)) := by
  induction rows with
  | nil => rfl
  | cons row rest ih =>
    simp [setColRows, List.zip_cons_cons] at *
    exact ih

/-- Multiplying the `price` and `qty` columns of a frame whose rows all
carry `price = 10` and `qty = 3` yields the constant-30 Series. -/
theorem seriesMul_pq (rows : List Row)
    (hall : ∀ row ∈ rows, getCell row "price" = Cell.int 10 ∧ getCell row "qty" = Cell.int 3) :
    seriesMul (colCells rows "price") (colCells rows "qty") =
      Except.ok (rows.map (fun _ => Cell.int 30)) := by
  induction rows with
  | nil => rfl
  | cons row rest ih =>
    obtain ⟨hp, hq⟩ := hall row (List.mem_cons_self row rest)
    have hrest := ih (fun r hr => hall r (List.mem_cons_of_mem row hr))
    simp only [colCells, List.map_cons] at hrest ⊢
    simp [seriesMul, hp, hq, cellMul, hrest]

/-- Counterexample to claim C3 as stated: with the formula expression
text `price * qty`, the `eval` call looks the bare names up in the
enclosing Python scope, which binds neither `price` nor `qty`, so
`transform_data` raises `NameError` instead of computing 30. -/
theorem calculate_bare_name_error_cex :
    transform_data dFnW dfPQ
      [("total", TransformDesc.calculate
        (PyExpr.mul (PyExpr.name "price") (PyExpr.name "qty")))] =
      Except.error (PipeError.nameError "price") := rfl

/-- Claim C3 amended: the formula must reference the frame explicitly,
as the expression text `df_transformed['price'] * df_transformed['qty']`;
then, on a dataset whose every row has `price = 10` and `qty = 3`, the
calculate transform sets the target column to 30 in every row, each row
computed from its own column values. -/
theorem calculate_df_formula_computes (dFn : Cell → Cell) (df : Df) (c : String)
    (hc : c ∈ df.cols) (hp : "price" ∈ df.cols) (hq : "qty" ∈ df.cols)
    (hall : ∀ row ∈ df.rows,
      getCell row "price" = Cell.int 10 ∧ getCell row "qty" = Cell.int 3)
    (hkey : ∀ row ∈ df.rows, (List.lookup c row).isSome = true) :
    ∃ out, transform_data dFn df
        [(c, TransformDesc.calculate (PyExpr.mul
          (PyExpr.subscript (PyExpr.name "df_transformed") "price")
          (PyExpr.subscript (PyExpr.name "df_transformed") "qty")))] =
        Except.ok (out, 0) ∧
      out.cols = df.cols ∧ out.rows.length = df.rows.length ∧
      ∀ row ∈ out.rows, getCell row c = Cell.int 30 := by
  refine ⟨{ df with rows := setColRows df.rows c (df.rows.map (fun _ => Cell.int 30)) },
    ?_, rfl, ?_, ?_⟩
  · simp only [transform_data, transformSteps, if_pos hc, applyTransform, pyEval,
      lookupEnv, hp, hq, if_pos, pyMul, seriesMul_pq df.rows hall, assignCol]
  · rw [setColRows_map]
    simp
  · intro row2 hrow2
    rw [setColRows_map] at hrow2
    obtain ⟨row, hrow, rfl⟩ := List.mem_map.1 hrow2
    exact getCell_setCellRow row c (Cell.int 30) (hkey row hrow)

/-- Witness for the amended C3 at a concrete two-row frame. -/
theorem calculate_df_formula_computes_witness :
    ∃ out, transform_data dFnW dfPQ
        [("total", TransformDesc.calculate (PyExpr.mul
          (PyExpr.subscript (PyExpr.name "df_transformed") "price")
          (PyExpr.subscript (PyExpr.name "df_transformed") "qty")))] =
        Except.ok (out, 0) ∧
      out.cols = dfPQ.cols ∧ out.rows.length = dfPQ.rows.length ∧
      ∀ row ∈ out.rows, getCell row "total" = Cell.int 30 :=
  calculate_df_formula_computes dFnW dfPQ "total" (by decide) (by decide) (by decide)
    (by decide) (by decide)

/-- Counterexample to claim C4 as stated: a descriptor with the
unrecognized kind `"frobnicate"` on an existing column is silently
skipped by both engines — the call returns the dataset unchanged with
no warning and no error, so no configuration error is reported at
rule-application time. -/
theorem unknown_kind_reported_cex :
    validate_data mfW dfAB [("a", RuleDesc.other "frobnicate")] = Except.ok (dfAB, 0) ∧
    transform_data dFnW dfAB [("a", TransformDesc.other "frobnicate")] = Except.ok (dfAB, 0) :=
  ⟨rfl, rfl⟩

/-- Claim C4 amended: a rule or transform descriptor whose kind is not
one of the recognized kinds, applied on an existing column, is silently
skipped: the dataset is returned unchanged, with no warning and no
error. -/
theorem unknown_kind_silently_skipped (mf : String → String → Bool) (dFn : Cell → Cell)
    (df : Df) (c : String) (k : String) (hc : c ∈ df.cols) :
    validate_data mf df [(c, RuleDesc.other k)] = Except.ok (df, 0) ∧
    transform_data dFn df [(c, TransformDesc.other k)] = Except.ok (df, 0) := by
  constructor
  · simp [validate_data, validateRules, hc]
  · simp [transform_data, transformSteps, hc, applyTransform]

/-- Witness for the amended C4 at a concrete frame. -/
theorem unknown_kind_silently_skipped_witness :
    validate_data mfW dfAB [("a", RuleDesc.other "mystery")] = Except.ok (dfAB, 0) ∧
    transform_data dFnW dfAB [("a", TransformDesc.other "mystery")] = Except.ok (dfAB, 0) :=
  unknown_kind_silently_skipped mfW dFnW dfAB "a" "mystery" (by decide)

/-- Counterexample to claim C5 as stated: a validation-stage failure (a
range rule meeting a string cell) propagates to the caller and the
connection is closed, but the error counter is not incremented — it
stays 0 in the final statistics. -/
theorem run_pipeline_validation_error_cex :
    run_pipeline initPipeline mfW dFnW (Except.ok dfStr1)
      [("age", RuleDesc.range 18 100)] [] true =
      (Except.error PipeError.typeError,
       { stats := { extracted := 1, transformed := 0, loaded := 0, errors := 0 },
         connectionOpen := false }) := rfl

/-- Claim C5 amended: the connection-close step runs on every exit
path, and every stage failure propagates to the caller, but only
extraction and load failures increment the error counter — a cleaning,
validation or transformation failure leaves it untouched. -/
theorem run_pipeline_failure_paths (p : PipeState) (mf : String → String → Bool)
    (dFn : Cell → Cell) (rules : List (String × RuleDesc))
    (ts : List (String × TransformDesc)) :
    (∀ extractRes loadOk,
      (run_pipeline p mf dFn extractRes rules ts loadOk).2.connectionOpen = false) ∧
    (∀ e loadOk, run_pipeline p mf dFn (Except.error e) rules ts loadOk =
      (Except.error e, { stats := addError p.stats, connectionOpen := false })) ∧
    (∀ df e loadOk, rules ≠ [] →
      validate_data mf (clean_data df) rules = Except.error e →
      run_pipeline p mf dFn (Except.ok df) rules ts loadOk =
        (Except.error e,
         { stats := { p.stats with extracted := df.rows.length },
           connectionOpen := false })) ∧
    (∀ df e loadOk, ts ≠ [] →
      transform_data dFn (clean_data df) ts = Except.error e →
      run_pipeline p mf dFn (Except.ok df) [] ts loadOk =
        (Except.error e,
         { stats := { p.stats with extracted := df.rows.length },
           connectionOpen := false })) ∧
    (∀ df, run_pipeline p mf dFn (Except.ok df) [] [] false =
      (Except.error PipeError.writeError,
       { stats := addError { p.stats with extracted := df.rows.length },
         connectionOpen := false })) := by
  refine ⟨fun extractRes loadOk => rfl, fun e loadOk => rfl, ?_, ?_, fun df => rfl⟩
  · intro df e loadOk hne hval
    have hie : rules.isEmpty = false := by
      cases rules with
      | nil => exact absurd rfl hne
      | cons a l => rfl
    simp [run_pipeline, runStages, hie, hval]
  · intro df e loadOk hne htr
    have hie : ts.isEmpty = false := by
      cases ts with
      | nil => exact absurd rfl hne
      | cons a l => rfl
    simp [run_pipeline, runStages, hie, htr]

/-- Witness for the amended C5: a concrete extraction failure and a
concrete load failure each add one error, and a concrete validation
failure adds none; the connection ends closed in all three. -/
theorem run_pipeline_failure_paths_witness :
    run_pipeline initPipeline mfW dFnW (Except.error PipeError.fileNotFound) [] [] true =
      (Except.error PipeError.fileNotFound,
       { stats := addError initPipeline.stats, connectionOpen := false }) ∧
    run_pipeline initPipeline mfW dFnW (Except.ok dfAB) [] [] false =
      (Except.error PipeError.writeError,
       { stats := addError { initPipeline.stats with extracted := dfAB.rows.length },
         connectionOpen := false }) ∧
    run_pipeline initPipeline mfW dFnW (Except.ok dfStr1)
        [("age", RuleDesc.range 18 100)] [] true =
      (Except.error PipeError.typeError,
       { stats := { initPipeline.stats with extracted := dfStr1.rows.length },
         connectionOpen := false }) :=
  ⟨(run_pipeline_failure_paths initPipeline mfW dFnW [] []).2.1 PipeError.fileNotFound true,
   (run_pipeline_failure_paths initPipeline mfW dFnW [] []).2.2.2.2 dfAB,
   (run_pipeline_failure_paths initPipeline mfW dFnW
      [("age", RuleDesc.range 18 100)] []).2.2.1 dfStr1 PipeError.typeError true
      (by simp) rfl⟩

/-- Counterexample to claim C6 as stated: two consecutive failing runs
on the same pipeline object — the error counter is not reset at the
start of the second run, so the second run's final statistics report 2
errors although that run alone raised 1. -/
theorem stats_not_reset_cex :
    ((run_pipeline
        (run_pipeline initPipeline mfW dFnW (Except.error PipeError.fileNotFound) [] [] true).2
        mfW dFnW (Except.error PipeError.fileNotFound) [] [] true).2).stats.errors = 2 := rfl

/-- The stats half of `run_pipeline`: the error counter only grows, and
a run given no transformations never writes the transformed counter. -/
theorem runStages_stats (mf : String → String → Bool) (dFn : Cell → Cell) (st : Stats)
    (extractRes : Except PipeError Df) (rules : List (String × RuleDesc))
    (ts : List (String × TransformDesc)) (loadOk : Bool) :
    st.errors ≤ (runStages mf dFn st extractRes rules ts loadOk).2.errors ∧
    (ts = [] →
      (runStages mf dFn st extractRes rules ts loadOk).2.transformed = st.transformed) := by
  rcases extractRes with e | df
  · simp [runStages, addError]
  · constructor
    · simp only [runStages]
      split
      · simp
      · split
        · simp
        · split_ifs <;> simp [addError]
    · intro hts
      subst hts
      simp only [runStages]
      split
      · simp
      · split
        · simp
        · split_ifs <;> simp_all [addError]

/-- Claim C6 amended: the statistics counters are initialized at
construction and never reset by `run_pipeline`: the error counter
accumulates across runs on the same object (it never decreases), and a
run that applies no transformations leaves the transformed counter at
whatever an earlier run stored, so a run's final summary can include
counts carried over from earlier runs. -/
theorem stats_never_reset (p : PipeState) (mf : String → String → Bool)
    (dFn : Cell → Cell) (extractRes : Except PipeError Df)
    (rules : List (String × RuleDesc)) (ts : List (String × TransformDesc))
    (loadOk : Bool) :
    p.stats.errors ≤ (run_pipeline p mf dFn extractRes rules ts loadOk).2.stats.errors ∧
    (ts = [] →
      (run_pipeline p mf dFn extractRes rules ts loadOk).2.stats.transformed =
        p.stats.transformed) := by
  have h := runStages_stats mf dFn p.stats extractRes rules ts loadOk
  simpa [run_pipeline] using h

/-- Witness for the amended C6 at a concrete successful run. -/
theorem stats_never_reset_witness :
    initPipeline.stats.errors ≤
      (run_pipeline initPipeline mfW dFnW (Except.ok dfAB) [] [] true).2.stats.errors ∧
    (([] : List (String × TransformDesc)) = [] →
      (run_pipeline initPipeline mfW dFnW (Except.ok dfAB) [] [] true).2.stats.transformed =
        initPipeline.stats.transformed) :=
  stats_never_reset initPipeline mfW dFnW (Except.ok dfAB) [] [] true

/-- Claim C10: the cleaning, validation and transformation stages never
mutate the caller's frame — each works on a fresh copy, so the store
slot of the input frame holds the same value after the call as before
it. -/
theorem stages_no_input_mutation (mf : String → String → Bool) (dFn : Cell → Cell)
    (s : Store) (i : Nat) (rules : List (String × RuleDesc))
    (ts : List (String × TransformDesc)) (hi : i < s.length) :
    (clean_dataS s i).1[i]? = s[i]? ∧
    (validate_dataS mf s i rules).1[i]? = s[i]? ∧
    (transform_dataS dFn s i ts).1[i]? = s[i]? := by
  have happ : ∀ d : Df, (s ++ [d])[i]? = s[i]? := fun d => List.getElem?_append_left hi
  refine ⟨happ _, ?_, ?_⟩
  · unfold validate_dataS
    rcases hv : validate_data mf (s.getD i default) rules with e | ⟨d, w⟩
    · rfl
    · exact happ d
  · have hji : i ≠ s.length := Nat.ne_of_lt hi
    have key : ∀ (ts2 : List (String × TransformDesc)) (s2 : Store),
        (transformStepsS dFn (s.getD i default) s.length ts2 s2).1[i]? = s2[i]? := by
      intro ts2
      induction ts2 with
      | nil => intro s2; rfl
      | cons ct rest ih =>
        intro s2
        obtain ⟨c, t⟩ := ct
        simp only [transformStepsS]
        split
        · split
          · rfl
          · rw [ih]
            exact List.getElem?_set_ne (Ne.symm hji)
        · exact ih s2
    rw [show transform_dataS dFn s i ts =
        transformStepsS dFn (s.getD i default) s.length ts (s ++ [s.getD i default]) from rfl,
      key ts (s ++ [s.getD i default]), happ]

/-- Witness for C10 at a concrete one-frame store. -/
theorem stages_no_input_mutation_witness :
    (clean_dataS [dfAB] 0).1[0]? = [dfAB][0]? ∧
    (validate_dataS mfW [dfAB] 0 [("a", RuleDesc.not_null)]).1[0]? = [dfAB][0]? ∧
    (transform_dataS dFnW [dfAB] 0 [("a", TransformDesc.uppercase)]).1[0]? =
      [dfAB][0]? :=
  stages_no_input_mutation mfW dFnW [dfAB] 0 [("a", RuleDesc.not_null)]
    [("a", TransformDesc.uppercase)] (by decide)

end ETL
